import Mathlib

/-!
Verification of the dual-source chat synchronization engine of the
tanstack-start-app repository.  The development shallowly embeds the
rate limiter (convex/rateLimit.ts), the remote session store (the convex
chat functions), the local session store (src/lib/anonymous-storage.ts),
the merge view and the chat POST handler (src/routes/index.tsx), and
proves theorems settling the specification claims about them.
-/

namespace ChatApp

/-- JavaScript string truthiness on an optional string value:
`null`/`undefined` and the empty string are falsy. -/
def jsFalsy : Option String → Bool
  | none => true
  | some s => s == ""

/-- JavaScript `a || b` on optional strings, keeping only a truthy result. -/
def jsStrOr (a b : Option String) : Option String :=
  if jsFalsy a then (if jsFalsy b then none else b) else a

/-- JavaScript `a || d` where `d` is a (truthy) default string. -/
def jsOrD (a : Option String) (d : String) : String :=
  match a with
  | none => d
  | some s => if s == "" then d else s

/-- JavaScript `Array.prototype.slice(s, e)`: negative indices count from
the end, then both are clamped to the array bounds. -/
def jsSlice {α : Type} (l : List α) (s e : Int) : List α :=
  let n : Int := l.length
  let s2 := if s < 0 then max (n + s) 0 else min s n
  let e2 := if e < 0 then max (n + e) 0 else min e n
  (l.take e2.toNat).drop s2.toNat

/-- One insertion step of the stable ascending sort: the new element goes
after every already-placed element whose key is `≤` its own key. -/
def sortInsert {α : Type} (key : α → Nat) (x : α) : List α → List α
  | [] => [x]
  | y :: ys => if key y ≤ key x then y :: sortInsert key x ys else x :: y :: ys

/-- Model of the stable ascending JavaScript sort
`arr.sort((a, b) => key(a) - key(b))`. -/
def jsSortBy {α : Type} (key : α → Nat) (l : List α) : List α :=
  l.foldl (fun acc x => sortInsert key x acc) []

/-! ## Data model -/

inductive Role where
  | user
  | assistant
deriving DecidableEq, Repr

structure Session where
  sessionId : String
  userId : String
  title : String
  createdAt : Nat
  updatedAt : Nat
deriving DecidableEq, Repr

structure Message where
  sessionId : String
  messageId : String
  role : Role
  content : String
  createdAt : Nat
deriving DecidableEq, Repr

structure RLRecord where
  identifier : String
  identifierType : String
  date : String
  messageCount : Nat
  updatedAt : Nat
deriving DecidableEq, Repr

/-- The remote (Convex) document store state: the three tables touched by
the chat feature.  Lists are kept in insertion order; index scans are
modelled by filter-and-stable-sort, which matches an index ordered by the
indexed field with creation time as the tiebreaker. -/
structure ConvexDB where
  sessions : List Session
  messages : List Message
  rateLimits : List RLRecord
deriving DecidableEq, Repr

/-! ## Rate limiter (convex/rateLimit.ts) -/

def AUTHENTICATED_USER_LIMIT : Nat := 10
def ANONYMOUS_USER_LIMIT : Nat := 5

/-- The `by_identifier_and_date` index lookup predicate. -/
def rlMatches (identifier today : String) (r : RLRecord) : Bool :=
  r.identifier == identifier && r.date == today

structure RLStatus where
  allowed : Bool
  limit : Nat
  remaining : Nat
  resetAt : String
deriving DecidableEq, Repr

/-- `checkRateLimit` query: reads the day's record for the identifier and
reports whether another message is allowed. -/
def checkRateLimit (rateLimits : List RLRecord) (today identifier identifierType : String) :
    RLStatus :=
  let limit := if identifierType == "user" then AUTHENTICATED_USER_LIMIT else ANONYMOUS_USER_LIMIT
  let currentCount := ((rateLimits.find? (rlMatches identifier today)).map
    (fun r => r.messageCount)).getD 0
  { allowed := decide (currentCount < limit)
    limit := limit
    remaining := limit - currentCount
    resetAt := today ++ "T23:59:59Z" }

/-- Replace the first element satisfying `p` (a `ctx.db.patch` of the
record returned by a `.first()` index lookup). -/
def patchFirst {α : Type} (p : α → Bool) (f : α → α) : List α → List α
  | [] => []
  | x :: xs => if p x then f x :: xs else x :: patchFirst p f xs

/-- `incrementRateLimit` mutation: bump the day's record, creating it at
count 1 when absent.  Returns the new table and the reported count. -/
def incrementRateLimit (rateLimits : List RLRecord) (today : String) (now : Nat)
    (identifier identifierType : String) : List RLRecord × Nat :=
  match rateLimits.find? (rlMatches identifier today) with
  | some record =>
    (patchFirst (rlMatches identifier today)
      (fun r => { r with messageCount := r.messageCount + 1, updatedAt := now }) rateLimits,
     record.messageCount + 1)
  | none =>
    (rateLimits ++ [{ identifier := identifier, identifierType := identifierType, date := today,
                      messageCount := 1, updatedAt := now }], 1)

/-- `n` successive `incrementRateLimit` calls for the same identity on the
same day. -/
def incrementRateLimitN (rateLimits : List RLRecord) (today : String) (now : Nat)
    (identifier identifierType : String) : Nat → List RLRecord
  | 0 => rateLimits
  | n + 1 =>
    (incrementRateLimit (incrementRateLimitN rateLimits today now identifier identifierType n)
      today now identifier identifierType).1

/-! ## Local session store (src/lib/anonymous-storage.ts) -/

structure AnonSession where
  sessionId : String
  title : String
  createdAt : Nat
  updatedAt : Nat
deriving DecidableEq, Repr

structure AnonMessage where
  messageId : String
  sessionId : String
  role : Role
  content : String
  createdAt : Nat
deriving DecidableEq, Repr

/-- The two durable localStorage slots holding anonymous chat data. -/
structure LocalStore where
  sessions : List AnonSession
  messages : List AnonMessage
deriving DecidableEq, Repr

structure PaginatedSessions where
  sessions : List AnonSession
  nextCursor : Option Nat
  hasMore : Bool
deriving DecidableEq, Repr

structure PaginatedMessages where
  messages : List AnonMessage
  nextCursor : Option Nat
  hasMore : Bool
deriving DecidableEq, Repr

def getAnonSessions (store : LocalStore) : List AnonSession :=
  store.sessions

/-- `getAnonSessionsPaginated`: plain forward-index pagination over the
session list (already newest-first by construction). -/
def getAnonSessionsPaginated (store : LocalStore) (cursor : Option Nat) (limit : Nat) :
    PaginatedSessions :=
  let allSessions := getAnonSessions store
  let startIndex := cursor.getD 0
  let endIndex := startIndex + limit
  let sessions := jsSlice allSessions startIndex endIndex
  let hasMore := decide (endIndex < allSessions.length)
  { sessions := sessions
    nextCursor := if hasMore then some endIndex else none
    hasMore := hasMore }

/-- `getAnonMessages`: filter the flat message slot by session and sort
chronologically (stable, as the JavaScript sort is). -/
def getAnonMessages (store : LocalStore) (sessionId : String) : List AnonMessage :=
  jsSortBy (fun m => m.createdAt) (store.messages.filter (fun m => m.sessionId == sessionId))

/-- The arithmetic core of `getAnonMessagesPaginated`, applied to the
chronologically sorted full list of the session's messages.  The cursor
counts how many messages from the newest end have already been loaded. -/
def paginateAnonMessages (allMessages : List AnonMessage) (cursor : Option Nat) (limit : Nat) :
    PaginatedMessages :=
  let totalCount := allMessages.length
  let endOffset := cursor.getD 0
  let startOffset := endOffset + limit
  let endIndex : Int := (totalCount : Int) - (endOffset : Int)
  let startIndex : Int := max 0 ((totalCount : Int) - (startOffset : Int))
  let messages := jsSlice allMessages startIndex endIndex
  let hasMore := decide (0 < startIndex)
  { messages := messages
    nextCursor := if hasMore then some startOffset else none
    hasMore := hasMore }

def getAnonMessagesPaginated (store : LocalStore) (sessionId : String) (cursor : Option Nat)
    (limit : Nat) : PaginatedMessages :=
  paginateAnonMessages (getAnonMessages store sessionId) cursor limit

/-- `saveAnonMessage`: append the message to the flat message slot.  No
session record is read or written. -/
def saveAnonMessage (store : LocalStore) (message : AnonMessage) : LocalStore :=
  { store with messages := store.messages ++ [message] }

/-- `createAnonSession`: unshift a fresh session at the head of the list. -/
def createAnonSession (store : LocalStore) (sessionId title : String) (now : Nat) : LocalStore :=
  { store with sessions :=
      { sessionId := sessionId, title := title, createdAt := now, updatedAt := now }
        :: store.sessions }

/-- `deleteAnonSession`: drop the session record and every message that
shares its `sessionId`. -/
def deleteAnonSession (store : LocalStore) (sessionId : String) : LocalStore :=
  { sessions := store.sessions.filter (fun s => !(s.sessionId == sessionId))
    messages := store.messages.filter (fun m => !(m.sessionId == sessionId)) }

/-- Follow the reverse pagination from a cursor: request a page, and while
`hasMore` holds continue at `nextCursor`.  `none` means the fuel ran out
before a terminal (`hasMore = false`) page was returned. -/
def followAnonPages (allMessages : List AnonMessage) (limit : Nat) :
    Nat → Nat → Option (List (List AnonMessage))
  | 0, _ => none
  | fuel + 1, cursor =>
    let p := paginateAnonMessages allMessages (some cursor) limit
    if p.hasMore then
      match p.nextCursor with
      | some c2 => (followAnonPages allMessages limit fuel c2).map (fun rest => p.messages :: rest)
      | none => none
    else some [p.messages]

/-! ## Remote session store (the convex chat functions) -/

/-- Convex `usePaginatedQuery`-style pagination options; the continuation
cursor is modelled as an index into the ordered index scan. -/
structure PaginationOpts where
  numItems : Nat
  cursor : Option Nat
deriving DecidableEq, Repr

structure PageResult (α : Type) where
  page : List α
  isDone : Bool
  continueCursor : String
deriving DecidableEq, Repr

/-- The empty/terminal pagination result the store returns on failed
authorization. -/
def emptyPageResult {α : Type} : PageResult α :=
  { page := [], isDone := true, continueCursor := "" }

/-- Model of the engine's native `.paginate` over an ordered index scan. -/
def paginate {α : Type} (l : List α) (opts : PaginationOpts) : PageResult α :=
  let start := opts.cursor.getD 0
  { page := (l.drop start).take opts.numItems
    isDone := decide (l.length ≤ start + opts.numItems)
    continueCursor := toString (start + opts.numItems) }

/-- The `by_user_and_time` index scanned in descending order. -/
def sessionsForUserDesc (db : ConvexDB) (userId : String) : List Session :=
  (jsSortBy (fun s => s.updatedAt) (db.sessions.filter (fun s => s.userId == userId))).reverse

/-- `.first()` on the `by_session_id` index. -/
def findSessionById (db : ConvexDB) (sessionId : String) : Option Session :=
  db.sessions.find? (fun s => s.sessionId == sessionId)

/-- The `by_session_and_time` index scanned in ascending order. -/
def messagesForSessionAsc (db : ConvexDB) (sessionId : String) : List Message :=
  jsSortBy (fun m => m.createdAt) (db.messages.filter (fun m => m.sessionId == sessionId))

/-- `listSessions` query: every client-facing entry point first resolves
the caller's verified principal (`auth`). -/
def listSessions (auth : Option String) (userId : String) (db : ConvexDB) : List Session :=
  match auth with
  | none => []
  | some authUserId =>
    if authUserId ≠ userId then [] else sessionsForUserDesc db userId

/-- `listSessionsPaginated` query. -/
def listSessionsPaginated (auth : Option String) (userId : String) (opts : PaginationOpts)
    (db : ConvexDB) : PageResult Session :=
  match auth with
  | none => emptyPageResult
  | some authUserId =>
    if authUserId ≠ userId then emptyPageResult
    else paginate (sessionsForUserDesc db userId) opts

/-- `getSession` query. -/
def getSession (auth : Option String) (sessionId : String) (db : ConvexDB) : Option Session :=
  match auth with
  | none => none
  | some authUserId =>
    match findSessionById db sessionId with
    | none => none
    | some session => if session.userId ≠ authUserId then none else some session

/-- `getMessages` query: the full ascending history, guarded by session
ownership. -/
def getMessages (auth : Option String) (sessionId : String) (db : ConvexDB) : List Message :=
  match auth with
  | none => []
  | some authUserId =>
    match findSessionById db sessionId with
    | none => []
    | some session =>
      if session.userId ≠ authUserId then [] else messagesForSessionAsc db sessionId

/-- `getMessagesPaginated` query. -/
def getMessagesPaginated (auth : Option String) (sessionId : String) (opts : PaginationOpts)
    (db : ConvexDB) : PageResult Message :=
  match auth with
  | none => emptyPageResult
  | some authUserId =>
    match findSessionById db sessionId with
    | none => emptyPageResult
    | some session =>
      if session.userId ≠ authUserId then emptyPageResult
      else paginate (messagesForSessionAsc db sessionId) opts

/-- Insertion performed by the `createSession` mutation. -/
def createSessionCore (sessionId userId title : String) (now : Nat) (db : ConvexDB) : ConvexDB :=
  { db with sessions := db.sessions ++
      [{ sessionId := sessionId, userId := userId, title := title,
         createdAt := now, updatedAt := now }] }

/-- `createSession` public mutation.  The handler never calls
`getAuthenticatedUserId`: the caller's principal (`auth`) is ignored and
the insert always succeeds. -/
def createSession (auth : Option String) (sessionId userId title : String) (now : Nat)
    (db : ConvexDB) : Except String ConvexDB :=
  Except.ok (createSessionCore sessionId userId title now db)

/-- `updateSession` public mutation: requires a verified principal owning
the session, then patches title (when provided) and `updatedAt`. -/
def updateSession (auth : Option String) (sessionId : String) (title : Option String)
    (now : Nat) (db : ConvexDB) : Except String ConvexDB :=
  match auth with
  | none => Except.error "Unauthorized"
  | some authUserId =>
    match findSessionById db sessionId with
    | none => Except.error "Session not found"
    | some session =>
      if session.userId ≠ authUserId then Except.error "Unauthorized"
      else Except.ok { db with sessions :=
        (patchFirst (fun s => s.sessionId == sessionId)
          (fun s =>
            { s with
              title := (if jsFalsy title then s.title else title.getD s.title)
              updatedAt := now }) db.sessions) }

/-- Remove the first element satisfying `p` (a `ctx.db.delete` of the
record returned by a `.first()` index lookup). -/
def eraseFirst {α : Type} (p : α → Bool) : List α → List α
  | [] => []
  | x :: xs => if p x then xs else x :: eraseFirst p xs

/-- `deleteSession` public mutation: requires a verified principal owning
the session, then deletes every message of the session and the session
record itself. -/
def deleteSession (auth : Option String) (sessionId : String) (db : ConvexDB) :
    Except String ConvexDB :=
  match auth with
  | none => Except.error "Unauthorized"
  | some authUserId =>
    match findSessionById db sessionId with
    | none => Except.error "Session not found"
    | some session =>
      if session.userId ≠ authUserId then Except.error "Unauthorized"
      else Except.ok
        { db with
          messages := db.messages.filter (fun m => !(m.sessionId == sessionId))
          sessions := eraseFirst (fun s => s.sessionId == sessionId) db.sessions }

/-- The session `updatedAt` bump shared by the message-append mutations:
patch the parent session when it exists, do nothing when it is missing. -/
def bumpSessionUpdatedAt (sessionId : String) (now : Nat) (db : ConvexDB) : ConvexDB :=
  match findSessionById db sessionId with
  | some _ => { db with sessions :=
      (patchFirst (fun s => s.sessionId == sessionId)
        (fun s => { s with updatedAt := now }) db.sessions) }
  | none => db

/-- Insertion performed by the `addMessage` mutation: bump the parent
session's `updatedAt`, then insert the message at the same clock value. -/
def addMessageCore (sessionId messageId : String) (role : Role) (content : String) (now : Nat)
    (db : ConvexDB) : ConvexDB :=
  let db1 := bumpSessionUpdatedAt sessionId now db
  { db1 with messages := db1.messages ++
      [{ sessionId := sessionId, messageId := messageId, role := role, content := content,
         createdAt := now }] }

/-- `addMessage` public mutation.  The handler never calls
`getAuthenticatedUserId`: the caller's principal (`auth`) is ignored and
the insert always succeeds. -/
def addMessage (auth : Option String) (sessionId messageId : String) (role : Role)
    (content : String) (now : Nat) (db : ConvexDB) : Except String ConvexDB :=
  Except.ok (addMessageCore sessionId messageId role content now db)

structure MessageInput where
  messageId : String
  role : Role
  content : String
deriving DecidableEq, Repr

/-- Insertion performed by the `addMessages` mutation: one `updatedAt`
bump, then each message inserted at `now + i` to ensure ordering. -/
def addMessagesCore (sessionId : String) (msgs : List MessageInput) (now : Nat)
    (db : ConvexDB) : ConvexDB :=
  let db1 := bumpSessionUpdatedAt sessionId now db
  { db1 with messages := db1.messages ++ msgs.enum.map (fun p =>
      { sessionId := sessionId, messageId := p.2.messageId, role := p.2.role,
        content := p.2.content, createdAt := now + p.1 }) }

/-- `addMessages` public mutation.  The handler never calls
`getAuthenticatedUserId`: the caller's principal (`auth`) is ignored and
the inserts always succeed. -/
def addMessages (auth : Option String) (sessionId : String) (msgs : List MessageInput)
    (now : Nat) (db : ConvexDB) : Except String ConvexDB :=
  Except.ok (addMessagesCore sessionId msgs now db)

/-! ## Merge view (the `allMessages` useMemo of src/routes/index.tsx) -/

structure ViewMsg where
  id : String
  role : Role
  content : String
  createdAt : Nat
  isStreaming : Bool
deriving DecidableEq, Repr

/-- A message held by the `useChat` hook during a live turn; `content` is
the joined text of its parts. -/
structure LiveMsg where
  id : String
  role : Role
  content : String
deriving DecidableEq, Repr

def toViewMsg (m : Message) : ViewMsg :=
  { id := m.messageId, role := m.role, content := m.content, createdAt := m.createdAt,
    isStreaming := false }

/-- `Math.max(base, ...msgs.map(m => m.createdAt))`. -/
def maxTimestamp (base : Nat) (msgs : List ViewMsg) : Nat :=
  msgs.foldl (fun acc m => max acc m.createdAt) base

/-- The merge view: combine the persisted messages with the in-flight
turn tracked by `useChat`, keyed by the pre-allocated message ids held in
`userIdRef` / `assistantIdRef`, and sort by `createdAt`. -/
def mergeView (storedMessages : List Message) (isLoading : Bool) (chatMessages : List LiveMsg)
    (userIdRef assistantIdRef : Option String) : List ViewMsg :=
  let convexMsgs := storedMessages.map toViewMsg
  let merged :=
    if isLoading ∧ 0 < chatMessages.length then
      let maxConvexTimestamp := maxTimestamp 0 convexMsgs
      let hasUserMessage :=
        match userIdRef with
        | some r => convexMsgs.any (fun m => m.id == r)
        | none => false
      let convexMsgs2 :=
        if !hasUserMessage then
          match chatMessages.find? (fun m => m.role == Role.user) with
          | some userMsg =>
            convexMsgs ++
              [{ id := jsOrD userIdRef userMsg.id
                 role := Role.user
                 content := userMsg.content
                 createdAt := maxConvexTimestamp + 1
                 isStreaming := false }]
          | none => convexMsgs
        else convexMsgs
      let hasAssistantMessage :=
        match assistantIdRef with
        | some r => convexMsgs2.any (fun m => m.id == r)
        | none => false
      if !hasAssistantMessage then
        match chatMessages.find? (fun m => m.role == Role.assistant) with
        | some assistantMsg =>
          let newMaxTimestamp := maxTimestamp maxConvexTimestamp convexMsgs2
          convexMsgs2 ++
            [{ id := jsOrD assistantIdRef assistantMsg.id
               role := Role.assistant
               content := assistantMsg.content
               createdAt := newMaxTimestamp + 1
               isStreaming := true }]
        | none => convexMsgs2
      else convexMsgs2
    else convexMsgs
  jsSortBy (fun m => m.createdAt) merged

/-! ## Chat POST handler (the /api/chat route of src/routes/index.tsx) -/

structure ChatTurn where
  role : Role
  content : String
deriving DecidableEq, Repr

/-- A provider stream chunk; only `type` and `delta` are inspected. -/
structure Chunk where
  type : String
  delta : String
deriving DecidableEq, Repr

/-- An event emitted on the response stream by `streamWithMeta`. -/
inductive Event where
  | metadata (sessionId : Option String) (userMessageId assistantMessageId : String)
  | provider (chunk : Chunk)
deriving DecidableEq, Repr

/-- The handler's possible responses.  The 429 response carries the body
fields (`limit`, `remaining`, `resetAt`) and the three `X-RateLimit-*`
header values as built by the source. -/
inductive ChatResponse where
  | configError500
  | identityRequired400
  | rateLimited429 (limit remaining : Nat) (resetAt hdrLimit hdrRemaining hdrReset : String)
  | streamResponse (events : List Event)
deriving DecidableEq, Repr

/-- Server environment: configured API key, configured Convex client, and
the outcome of Clerk bearer-token verification (`none` when the header is
absent or verification failed). -/
structure HandlerEnv where
  hasApiKey : Bool
  hasConvex : Bool
  verifiedUserId : Option String
deriving DecidableEq, Repr

/-- The parsed request body plus the client IP resolved from headers. -/
structure HandlerReq where
  sessionId : Option String
  anonymousId : Option String
  userMessageId : Option String
  isAnonymous : Bool
  messageHistory : List ChatTurn
  userMessageContent : String
  clientIP : String
deriving DecidableEq, Repr

/-- External effects consumed by one request: generated UUIDs, the clock,
the provider completion stream (a function of the messages handed to the
model), and whether the rate-limiter backend calls throw. -/
structure HandlerExt where
  uuidSessionId : String
  uuidUserMessageId : String
  uuidAssistantMessageId : String
  today : String
  now : Nat
  providerStream : List ChatTurn → List Chunk
  checkThrows : Bool
  incrementThrows : Bool

/-- `sessionId || crypto.randomUUID()`. -/
def resolvedSessionId (req : HandlerReq) (ext : HandlerExt) : String :=
  jsOrD req.sessionId ext.uuidSessionId

/-- `isNewSession = !sessionId`. -/
def isNewSession (req : HandlerReq) : Bool :=
  jsFalsy req.sessionId

/-- `userMessageId || crypto.randomUUID()`. -/
def resolvedUserMessageId (req : HandlerReq) (ext : HandlerExt) : String :=
  jsOrD req.userMessageId ext.uuidUserMessageId

/-- `userMessageContent.slice(0, 50) || 'New Chat'`. -/
def sessionTitle (userMessageContent : String) : String :=
  let t := (userMessageContent.toList.take 50).asString
  if t == "" then "New Chat" else t

/-- Context assembly of the serving handler: for both anonymous and
authenticated requests, the client-shipped `messageHistory` plus the
current user message. -/
def contextMessages (req : HandlerReq) : List ChatTurn :=
  req.messageHistory ++ [{ role := Role.user, content := req.userMessageContent }]

/-- Context assembly of the legacy handler variant (the unnamed
/api/chat route file): anonymous requests use the client-shipped history,
authenticated requests re-derive the full history from the remote store. -/
def contextMessagesLegacy (isAnon hasConvex : Bool) (messageHistory : List ChatTurn)
    (userMessageContent : String) (db : ConvexDB) (sessionId : String) : List ChatTurn :=
  if isAnon then
    messageHistory ++ [{ role := Role.user, content := userMessageContent }]
  else if hasConvex then
    (messagesForSessionAsc db sessionId).map (fun m => { role := m.role, content := m.content })
  else []

/-- The text accumulated from the provider chunks
(`chunk.type === 'content' && chunk.delta`). -/
def fullResponseOf (chunks : List Chunk) : String :=
  chunks.foldl (fun acc c => if c.type == "content" && c.delta != "" then acc ++ c.delta else acc)
    ""

/-- `streamWithMeta`: emit the metadata event (with the session id exactly
on a new session), then every provider chunk; afterwards persist the
assistant message (authenticated mode) and bump the rate limiter, whose
failure is caught and ignored. -/
def streamWithMeta (isNew : Bool)
    (currentSessionId currentUserMessageId assistantMessageId : String)
    (isAnon hasConvex : Bool) (rateLimitIdentifier identifierType : String)
    (ext : HandlerExt) (chunks : List Chunk) (db : ConvexDB) : List Event × ConvexDB :=
  let metaEvent :=
    if isNew then Event.metadata (some currentSessionId) currentUserMessageId assistantMessageId
    else Event.metadata none currentUserMessageId assistantMessageId
  let events := metaEvent :: chunks.map Event.provider
  let fullResponse := fullResponseOf chunks
  let db1 :=
    if ¬isAnon ∧ hasConvex ∧ fullResponse ≠ "" then
      addMessageCore currentSessionId assistantMessageId Role.assistant fullResponse ext.now db
    else db
  let db2 :=
    if hasConvex ∧ fullResponse ≠ "" ∧ ¬ext.incrementThrows then
      { db1 with rateLimits := (incrementRateLimit db1.rateLimits ext.today ext.now
          rateLimitIdentifier identifierType).1 }
    else db1
  (events, db2)

/-- The POST /api/chat handler of the serving route file: configuration
check, identity resolution, fail-open rate-limit check, server-side
persistence for authenticated mode, then the metadata-first event
stream.  Returns the response together with the remote store state. -/
def postHandler (env : HandlerEnv) (req : HandlerReq) (ext : HandlerExt) (db : ConvexDB) :
    ChatResponse × ConvexDB :=
  if ¬env.hasApiKey then (ChatResponse.configError500, db)
  else
    let userId := env.verifiedUserId
    match jsStrOr userId req.anonymousId with
    | none => (ChatResponse.identityRequired400, db)
    | some currentUserId =>
      let rateLimitIdentifier := jsOrD userId req.clientIP
      let identifierType := if jsFalsy userId then "ip" else "user"
      let refusal : Option ChatResponse :=
        if env.hasConvex ∧ ¬ext.checkThrows then
          let st := checkRateLimit db.rateLimits ext.today rateLimitIdentifier identifierType
          if ¬st.allowed then
            some (ChatResponse.rateLimited429 st.limit 0 st.resetAt
              (toString st.limit) "0" st.resetAt)
          else none
        else none
      match refusal with
      | some r => (r, db)
      | none =>
        let isAnon := req.isAnonymous
        let currentSessionId := resolvedSessionId req ext
        let isNew := isNewSession req
        let currentUserMessageId := resolvedUserMessageId req ext
        let assistantMessageId := ext.uuidAssistantMessageId
        let userMessageContent := req.userMessageContent
        let db1 :=
          if ¬isAnon ∧ env.hasConvex ∧ isNew then
            createSessionCore currentSessionId currentUserId (sessionTitle userMessageContent)
              ext.now db
          else db
        let db2 :=
          if ¬isAnon ∧ env.hasConvex ∧ userMessageContent ≠ "" then
            addMessageCore currentSessionId currentUserMessageId Role.user userMessageContent
              ext.now db1
          else db1
        let chunks := ext.providerStream (contextMessages req)
        let result := streamWithMeta isNew currentSessionId currentUserMessageId
          assistantMessageId isAnon env.hasConvex rateLimitIdentifier identifierType ext chunks
          db2
        (ChatResponse.streamResponse result.1, result.2)

/-- The rate-limit status the handler computes for a request: identifier
`userId || clientIP`, type `user` for a verified principal else `ip`. -/
def handlerRateLimitStatus (env : HandlerEnv) (req : HandlerReq) (ext : HandlerExt)
    (db : ConvexDB) : RLStatus :=
  checkRateLimit db.rateLimits ext.today (jsOrD env.verifiedUserId req.clientIP)
    (if jsFalsy env.verifiedUserId then "ip" else "user")

/-! ## Helper lemmas -/

theorem find?_append_singleton_of_none {α : Type} {p : α → Bool} {l : List α} {r : α}
    (hl : l.find? p = none) (hr : p r = true) : (l ++ [r]).find? p = some r := by
  rw [List.find?_append, hl]
  simp [List.find?, hr]

theorem patchFirst_append_of_none {α : Type} {p : α → Bool} {f : α → α} {l l2 : List α}
    (hl : l.find? p = none) : patchFirst p f (l ++ l2) = l ++ patchFirst p f l2 := by
  induction l with
  | nil => rfl
  | cons x xs ih =>
    rw [List.find?] at hl
    cases hx : p x with
    | true => simp [hx] at hl
    | false =>
      simp only [hx] at hl
      simp [patchFirst, hx, ih hl]

theorem rlMatches_self (identifier ty today : String) (n now : Nat) :
    rlMatches identifier today
      { identifier := identifier, identifierType := ty, date := today,
        messageCount := n, updatedAt := now } = true := by
  simp [rlMatches]

/-- Starting from a day with no record for the identity, `n ≥ 1` increments
leave the table extended with exactly one record for the identity at
count `n`. -/
theorem incrementRateLimitN_fresh (rl : List RLRecord) (today : String) (now : Nat)
    (identifier ty : String) (hfresh : rl.find? (rlMatches identifier today) = none) :
    ∀ n, 1 ≤ n → incrementRateLimitN rl today now identifier ty n =
      rl ++ [{ identifier := identifier, identifierType := ty, date := today,
               messageCount := n, updatedAt := now }] := by
  intro n hn
  induction n with
  | zero => exact absurd hn (by omega)
  | succ m ih =>
    cases Nat.eq_or_lt_of_le hn with
    | inl h1 =>
      have hm : m = 0 := by omega
      subst hm
      simp only [incrementRateLimitN, incrementRateLimit, hfresh]
    | inr h1 =>
      have hm : 1 ≤ m := by omega
      have hrec := ih hm
      simp only [incrementRateLimitN, hrec, incrementRateLimit]
      rw [find?_append_singleton_of_none hfresh (rlMatches_self ..)]
      simp only []
      rw [patchFirst_append_of_none hfresh]
      simp [patchFirst, rlMatches_self]

/-! ## Claim theorems -/

/-- C3: the daily limit is 10 for `user` and 5 for `ip` identities; after
exactly `limit` increments within one UTC day the next same-day check is
refused; a check on a different day with no record for that day is
allowed regardless of the prior day's count; and `resetAt` is always the
end (last second) of the current UTC day. -/
theorem rateLimiter_daily_quota_and_reset
    (rl : List RLRecord) (identifier ty today tomorrow : String) (now : Nat)
    (hfresh : rl.find? (rlMatches identifier today) = none)
    (hfresh2 : rl.find? (rlMatches identifier tomorrow) = none)
    (hne : tomorrow ≠ today) :
    (checkRateLimit rl today identifier "user").limit = 10 ∧
    (checkRateLimit rl today identifier "ip").limit = 5 ∧
    (checkRateLimit
      (incrementRateLimitN rl today now identifier ty (if ty = "user" then 10 else 5))
      today identifier ty).allowed = false ∧
    (checkRateLimit
      (incrementRateLimitN rl today now identifier ty (if ty = "user" then 10 else 5))
      tomorrow identifier ty).allowed = true ∧
    (∀ rl2 id2 ty2, (checkRateLimit rl2 today id2 ty2).resetAt = today ++ "T23:59:59Z") := by
  have hne2 : today ≠ tomorrow := fun h => hne h.symm
  set lim : Nat := if ty = "user" then 10 else 5 with hlim
  have hlim_pos : 1 ≤ lim := by
    rw [hlim]; split <;> omega
  have hfull := incrementRateLimitN_fresh rl today now identifier ty hfresh lim hlim_pos
  have hcklimit : ∀ rl2, (checkRateLimit rl2 today identifier ty).limit = lim := by
    intro rl2
    simp [checkRateLimit, AUTHENTICATED_USER_LIMIT, ANONYMOUS_USER_LIMIT, hlim]
  refine ⟨by simp [checkRateLimit, AUTHENTICATED_USER_LIMIT],
          by simp [checkRateLimit, ANONYMOUS_USER_LIMIT],
          ?_, ?_, by intro rl2 id2 ty2; simp [checkRateLimit]⟩
  · rw [hfull]
    unfold checkRateLimit
    rw [find?_append_singleton_of_none hfresh (rlMatches_self ..)]
    simp only [Option.map_some', Option.getD_some]
    simp [AUTHENTICATED_USER_LIMIT, ANONYMOUS_USER_LIMIT, hlim]
  · rw [hfull]
    unfold checkRateLimit
    have hnomatch : rlMatches identifier tomorrow
        { identifier := identifier, identifierType := ty, date := today,
          messageCount := lim, updatedAt := now } = false := by
      simp [rlMatches, hne2]
    rw [List.find?_append, hfresh2]
    simp [List.find?, hnomatch, AUTHENTICATED_USER_LIMIT, ANONYMOUS_USER_LIMIT]
    split <;> omega

/-- Whenever the handler answers with an event stream, the stream is the
metadata event followed by exactly the provider chunks produced from the
assembled context. -/
theorem postHandler_stream_shape (env : HandlerEnv) (req : HandlerReq) (ext : HandlerExt)
    (db : ConvexDB) (events : List Event) (db2 : ConvexDB)
    (h : postHandler env req ext db = (ChatResponse.streamResponse events, db2)) :
    events = (if isNewSession req then
        Event.metadata (some (resolvedSessionId req ext)) (resolvedUserMessageId req ext)
          ext.uuidAssistantMessageId
      else
        Event.metadata none (resolvedUserMessageId req ext) ext.uuidAssistantMessageId)
      :: (ext.providerStream (contextMessages req)).map Event.provider := by
  unfold postHandler at h
  dsimp only at h
  repeat' split at h
  all_goals
    first
      | exact ChatResponse.noConfusion (congrArg Prod.fst h)
      | (rw [← ChatResponse.streamResponse.inj (congrArg Prod.fst h)]; rfl)
      | (rename_i heq
         repeat' split at heq
         all_goals
           first
             | exact Option.noConfusion heq
             | (cases Option.some_inj.mp heq
                exact ChatResponse.noConfusion (congrArg Prod.fst h)))

theorem jsFalsy_iff (o : Option String) : jsFalsy o = true ↔ o = none ∨ o = some "" := by
  cases o with
  | none => simp [jsFalsy]
  | some s => simp [jsFalsy]

/-- C7: every request served with a stream gets the metadata event first,
carrying the user and assistant message ids, with a session id exactly
when the request supplied no (truthy) session id; all subsequent events
are exactly the provider chunks. -/
theorem chat_stream_first_event_metadata
    (env : HandlerEnv) (req : HandlerReq) (ext : HandlerExt) (db : ConvexDB)
    (events : List Event) (db2 : ConvexDB)
    (h : postHandler env req ext db = (ChatResponse.streamResponse events, db2)) :
    events.head? = some (if isNewSession req then
        Event.metadata (some (resolvedSessionId req ext)) (resolvedUserMessageId req ext)
          ext.uuidAssistantMessageId
      else
        Event.metadata none (resolvedUserMessageId req ext) ext.uuidAssistantMessageId) ∧
    events.tail = (ext.providerStream (contextMessages req)).map Event.provider ∧
    (∀ sid umid amid, events.head? = some (Event.metadata sid umid amid) →
      (sid.isSome = true ↔ (req.sessionId = none ∨ req.sessionId = some ""))) := by
  have hs := postHandler_stream_shape env req ext db events db2 h
  subst hs
  refine ⟨rfl, rfl, ?_⟩
  intro sid umid amid hhead
  simp only [List.head?_cons, Option.some_inj] at hhead
  rw [← jsFalsy_iff req.sessionId]
  split at hhead
  case isTrue hNew =>
    obtain ⟨h1, -, -⟩ := Event.metadata.inj hhead
    rw [← h1]
    simpa [isNewSession] using hNew
  case isFalse hNew =>
    obtain ⟨h1, -, -⟩ := Event.metadata.inj hhead
    rw [← h1]
    simpa [isNewSession] using hNew

/-- Witness for C7: a concrete authenticated follow-up request served with
a stream. -/
theorem chat_stream_first_event_metadata_witness :
    (postHandler ⟨true, true, some "alice"⟩
        ⟨some "s", none, some "um", false, [⟨Role.assistant, "prev"⟩], "hi", "9.9.9.9"⟩
        ⟨"gs", "gu", "ga", "2026-10-11", 50, fun _ => [⟨"content", "Hello"⟩], false, false⟩
        ⟨[⟨"s", "alice", "t", 1, 1⟩], [], []⟩ =
      (ChatResponse.streamResponse
        [Event.metadata none "um" "ga", Event.provider ⟨"content", "Hello"⟩],
       ⟨[⟨"s", "alice", "t", 1, 50⟩],
        [⟨"s", "um", Role.user, "hi", 50⟩, ⟨"s", "ga", Role.assistant, "Hello", 50⟩],
        [⟨"alice", "user", "2026-10-11", 1, 50⟩]⟩)) ∧
    ([Event.metadata none "um" "ga", Event.provider ⟨"content", "Hello"⟩].head? =
       some (if isNewSession
           ⟨some "s", none, some "um", false, [⟨Role.assistant, "prev"⟩], "hi", "9.9.9.9"⟩ then
         Event.metadata
           (some (resolvedSessionId
             ⟨some "s", none, some "um", false, [⟨Role.assistant, "prev"⟩], "hi", "9.9.9.9"⟩
             ⟨"gs", "gu", "ga", "2026-10-11", 50, fun _ => [⟨"content", "Hello"⟩], false, false⟩))
           (resolvedUserMessageId
             ⟨some "s", none, some "um", false, [⟨Role.assistant, "prev"⟩], "hi", "9.9.9.9"⟩
             ⟨"gs", "gu", "ga", "2026-10-11", 50, fun _ => [⟨"content", "Hello"⟩], false, false⟩)
           "ga"
       else
         Event.metadata none
           (resolvedUserMessageId
             ⟨some "s", none, some "um", false, [⟨Role.assistant, "prev"⟩], "hi", "9.9.9.9"⟩
             ⟨"gs", "gu", "ga", "2026-10-11", 50, fun _ => [⟨"content", "Hello"⟩], false, false⟩)
           "ga")) := by
  have h0 : postHandler ⟨true, true, some "alice"⟩
      ⟨some "s", none, some "um", false, [⟨Role.assistant, "prev"⟩], "hi", "9.9.9.9"⟩
      ⟨"gs", "gu", "ga", "2026-10-11", 50, fun _ => [⟨"content", "Hello"⟩], false, false⟩
      ⟨[⟨"s", "alice", "t", 1, 1⟩], [], []⟩ =
    (ChatResponse.streamResponse
      [Event.metadata none "um" "ga", Event.provider ⟨"content", "Hello"⟩],
     ⟨[⟨"s", "alice", "t", 1, 50⟩],
      [⟨"s", "um", Role.user, "hi", 50⟩, ⟨"s", "ga", Role.assistant, "Hello", 50⟩],
      [⟨"alice", "user", "2026-10-11", 1, 50⟩]⟩) := by decide
  exact ⟨h0, (chat_stream_first_event_metadata _ _ _ _ _ _ h0).1⟩

/-- C2: when the rate-limit check reports the quota exhausted, the
handler returns the 429 response carrying `limit`, `remaining` and
`resetAt`, mirrored in the `X-RateLimit-*` header values, with the store
state unchanged (no session or message record created). -/
theorem chat_429_quota_refusal
    (env : HandlerEnv) (req : HandlerReq) (ext : HandlerExt) (db : ConvexDB)
    (hkey : env.hasApiKey = true)
    (hid : ∃ uid, jsStrOr env.verifiedUserId req.anonymousId = some uid)
    (hconvex : env.hasConvex = true)
    (hthrow : ext.checkThrows = false)
    (hblocked : (handlerRateLimitStatus env req ext db).allowed = false) :
    postHandler env req ext db =
      (ChatResponse.rateLimited429 (handlerRateLimitStatus env req ext db).limit 0
        (handlerRateLimitStatus env req ext db).resetAt
        (toString (handlerRateLimitStatus env req ext db).limit) "0"
        (handlerRateLimitStatus env req ext db).resetAt, db) ∧
    (∀ l r ra hl hr hrs db2,
      postHandler env req ext db = (ChatResponse.rateLimited429 l r ra hl hr hrs, db2) →
      hl = toString l ∧ hr = toString r ∧ hrs = ra ∧ db2 = db) := by
  obtain ⟨uid, huid⟩ := hid
  unfold handlerRateLimitStatus at hblocked
  have h1 : postHandler env req ext db =
      (ChatResponse.rateLimited429 (handlerRateLimitStatus env req ext db).limit 0
        (handlerRateLimitStatus env req ext db).resetAt
        (toString (handlerRateLimitStatus env req ext db).limit) "0"
        (handlerRateLimitStatus env req ext db).resetAt, db) := by
    unfold postHandler
    dsimp only
    rw [huid, if_neg (by simp [hkey]), if_pos (by simp [hconvex, hthrow]),
      if_pos (by simp [hblocked])]
    rfl
  refine ⟨h1, ?_⟩
  intro l r ra hl hr hrs db2 h2
  rw [h1] at h2
  obtain ⟨hresp, hdb⟩ := Prod.mk.injEq .. ▸ h2
  obtain ⟨e1, e2, e3, e4, e5, e6⟩ := ChatResponse.rateLimited429.inj hresp
  subst e1; subst e2; subst e3; subst e4; subst e5; subst e6
  exact ⟨rfl, rfl, rfl, hdb.symm⟩

/-- Witness for C2: an authenticated identity that already used its 10
messages today is refused with the mirrored 429 and an unchanged store. -/
theorem chat_429_quota_refusal_witness :
    (∃ uid, jsStrOr (some "alice") none = some uid) ∧
    ((handlerRateLimitStatus ⟨true, true, some "alice"⟩
        ⟨some "s", none, some "um", false, [], "hi", "9.9.9.9"⟩
        ⟨"gs", "gu", "ga", "2026-10-11", 50, fun _ => [], false, false⟩
        ⟨[], [], [⟨"alice", "user", "2026-10-11", 10, 9⟩]⟩).allowed = false) ∧
    postHandler ⟨true, true, some "alice"⟩
        ⟨some "s", none, some "um", false, [], "hi", "9.9.9.9"⟩
        ⟨"gs", "gu", "ga", "2026-10-11", 50, fun _ => [], false, false⟩
        ⟨[], [], [⟨"alice", "user", "2026-10-11", 10, 9⟩]⟩ =
      (ChatResponse.rateLimited429
        (handlerRateLimitStatus ⟨true, true, some "alice"⟩
          ⟨some "s", none, some "um", false, [], "hi", "9.9.9.9"⟩
          ⟨"gs", "gu", "ga", "2026-10-11", 50, fun _ => [], false, false⟩
          ⟨[], [], [⟨"alice", "user", "2026-10-11", 10, 9⟩]⟩).limit 0
        (handlerRateLimitStatus ⟨true, true, some "alice"⟩
          ⟨some "s", none, some "um", false, [], "hi", "9.9.9.9"⟩
          ⟨"gs", "gu", "ga", "2026-10-11", 50, fun _ => [], false, false⟩
          ⟨[], [], [⟨"alice", "user", "2026-10-11", 10, 9⟩]⟩).resetAt
        (toString (handlerRateLimitStatus ⟨true, true, some "alice"⟩
          ⟨some "s", none, some "um", false, [], "hi", "9.9.9.9"⟩
          ⟨"gs", "gu", "ga", "2026-10-11", 50, fun _ => [], false, false⟩
          ⟨[], [], [⟨"alice", "user", "2026-10-11", 10, 9⟩]⟩).limit) "0"
        (handlerRateLimitStatus ⟨true, true, some "alice"⟩
          ⟨some "s", none, some "um", false, [], "hi", "9.9.9.9"⟩
          ⟨"gs", "gu", "ga", "2026-10-11", 50, fun _ => [], false, false⟩
          ⟨[], [], [⟨"alice", "user", "2026-10-11", 10, 9⟩]⟩).resetAt,
       ⟨[], [], [⟨"alice", "user", "2026-10-11", 10, 9⟩]⟩) := by
  refine ⟨⟨"alice", by decide⟩, by decide, ?_⟩
  exact (chat_429_quota_refusal ⟨true, true, some "alice"⟩
    ⟨some "s", none, some "um", false, [], "hi", "9.9.9.9"⟩
    ⟨"gs", "gu", "ga", "2026-10-11", 50, fun _ => [], false, false⟩
    ⟨[], [], [⟨"alice", "user", "2026-10-11", 10, 9⟩]⟩
    (by decide) ⟨"alice", by decide⟩ (by decide) (by decide) (by decide)).1

/-- C4: rate limiting is fail-open.  A throwing `check` call never blocks
the request — the handler still answers with a stream; and whether or not
the post-stream `increment` call throws, the response delivered to the
client is identical (the failure only loses the counter bump). -/
theorem chat_rate_limiter_fail_open
    (env : HandlerEnv) (req : HandlerReq) (ext : HandlerExt) (db : ConvexDB)
    (hkey : env.hasApiKey = true)
    (hid : ∃ uid, jsStrOr env.verifiedUserId req.anonymousId = some uid)
    (hthrow : ext.checkThrows = true) :
    (∃ events db2, postHandler env req ext db = (ChatResponse.streamResponse events, db2)) ∧
    (∀ ext2 : HandlerExt,
      (postHandler env req { ext2 with incrementThrows := true } db).1 =
        (postHandler env req { ext2 with incrementThrows := false } db).1) := by
  obtain ⟨uid, huid⟩ := hid
  constructor
  · unfold postHandler
    dsimp only
    rw [huid, if_neg (by simp [hkey]), if_neg (by simp [hthrow])]
    exact ⟨_, _, rfl⟩
  · intro ext2
    by_cases hk : env.hasApiKey = true
    · cases hOr : jsStrOr env.verifiedUserId req.anonymousId with
      | none => simp [postHandler, hk, hOr]
      | some u =>
        by_cases hcv : env.hasConvex = true ∧ ext2.checkThrows = false
        · by_cases hal : (checkRateLimit db.rateLimits ext2.today
              (jsOrD env.verifiedUserId req.clientIP)
              (if jsFalsy env.verifiedUserId = true then "ip" else "user")).allowed = false
          · simp [postHandler, hk, hOr, hcv.1, hcv.2, hal]
          · simp [postHandler, hk, hOr, hcv.1, hcv.2, hal, streamWithMeta, resolvedSessionId,
              resolvedUserMessageId]
        · simp [postHandler, hk, hOr, hcv, streamWithMeta, resolvedSessionId,
            resolvedUserMessageId]
    · simp [postHandler, hk]

/-- Witness for C4: a throwing check with the quota exhausted still
streams, and a throwing increment leaves the delivered response
unchanged. -/
theorem chat_rate_limiter_fail_open_witness :
    (∃ uid, jsStrOr (some "alice") none = some uid) ∧
    ((∃ events db2, postHandler ⟨true, true, some "alice"⟩
        ⟨some "s", none, some "um", false, [], "hi", "9.9.9.9"⟩
        ⟨"gs", "gu", "ga", "2026-10-11", 50, fun _ => [⟨"content", "Hello"⟩], true, false⟩
        ⟨[], [], [⟨"alice", "user", "2026-10-11", 10, 9⟩]⟩ =
        (ChatResponse.streamResponse events, db2)) ∧
     (∀ ext2 : HandlerExt,
       (postHandler ⟨true, true, some "alice"⟩
         ⟨some "s", none, some "um", false, [], "hi", "9.9.9.9"⟩
         { ext2 with incrementThrows := true }
         ⟨[], [], [⟨"alice", "user", "2026-10-11", 10, 9⟩]⟩).1 =
       (postHandler ⟨true, true, some "alice"⟩
         ⟨some "s", none, some "um", false, [], "hi", "9.9.9.9"⟩
         { ext2 with incrementThrows := false }
         ⟨[], [], [⟨"alice", "user", "2026-10-11", 10, 9⟩]⟩).1)) :=
  ⟨⟨"alice", by decide⟩,
   chat_rate_limiter_fail_open ⟨true, true, some "alice"⟩
     ⟨some "s", none, some "um", false, [], "hi", "9.9.9.9"⟩
     ⟨"gs", "gu", "ga", "2026-10-11", 50, fun _ => [⟨"content", "Hello"⟩], true, false⟩
     ⟨[], [], [⟨"alice", "user", "2026-10-11", 10, 9⟩]⟩
     (by decide) ⟨"alice", by decide⟩ (by decide)⟩

/-- C8 counterexample: an authenticated request whose client ships an
empty history.  The serving handler hands the model only the client
history plus the current message, which differs from the Remote Store's
full history for the session (re-derived after the user-message insert,
as the legacy handler does). -/
theorem context_not_rederived_from_remote_store :
    contextMessages ⟨some "s", none, some "m9", false, [], "hi", "1.2.3.4"⟩ ≠
      (messagesForSessionAsc
        (addMessageCore "s" "m9" Role.user "hi" 2
          ⟨[⟨"s", "u", "t", 1, 1⟩], [⟨"s", "m1", Role.assistant, "prior", 1⟩], []⟩) "s").map
        (fun m => ⟨m.role, m.content⟩) := by
  decide

/-- C8 amended: the serving handler assembles the model context from the
client-shipped `messageHistory` plus the current user message for
authenticated and anonymous requests alike (every streamed response's
provider events come from that context); only the legacy handler variant
re-derives authenticated context from the Remote Store's full history. -/
theorem context_assembly_client_history_both_modes
    (env : HandlerEnv) (req : HandlerReq) (ext : HandlerExt) (db : ConvexDB)
    (events : List Event) (db2 : ConvexDB)
    (h : postHandler env req ext db = (ChatResponse.streamResponse events, db2)) :
    events.tail = (ext.providerStream
      (req.messageHistory ++ [{ role := Role.user, content := req.userMessageContent }])).map
      Event.provider ∧
    (∀ (hasConvex : Bool) (mh : List ChatTurn) (umc : String) (db3 : ConvexDB) (sid : String),
      contextMessagesLegacy true hasConvex mh umc db3 sid =
        mh ++ [{ role := Role.user, content := umc }] ∧
      contextMessagesLegacy false true mh umc db3 sid =
        (messagesForSessionAsc db3 sid).map (fun m => { role := m.role, content := m.content })) := by
  have hs := postHandler_stream_shape env req ext db events db2 h
  subst hs
  exact ⟨rfl, fun hasConvex mh umc db3 sid => ⟨rfl, rfl⟩⟩

/-- Witness for C8 at a concrete anonymous request served with a stream. -/
theorem context_assembly_client_history_both_modes_witness :
    (postHandler ⟨true, false, none⟩
        ⟨none, some "anon1", some "um", true, [⟨Role.user, "hey"⟩], "hi", "2.2.2.2"⟩
        ⟨"gs", "gu", "ga", "2026-10-11", 50, fun _ => [⟨"content", "Yo"⟩], false, false⟩
        ⟨[], [], []⟩ =
      (ChatResponse.streamResponse
        [Event.metadata (some "gs") "um" "ga", Event.provider ⟨"content", "Yo"⟩],
       ⟨[], [], []⟩)) ∧
    [Event.metadata (some "gs") "um" "ga", Event.provider ⟨"content", "Yo"⟩].tail =
      ((fun _ => [⟨"content", "Yo"⟩] : List ChatTurn → List Chunk)
        ([⟨Role.user, "hey"⟩] ++ [{ role := Role.user, content := "hi" }])).map
        Event.provider := by
  have h0 : postHandler ⟨true, false, none⟩
      ⟨none, some "anon1", some "um", true, [⟨Role.user, "hey"⟩], "hi", "2.2.2.2"⟩
      ⟨"gs", "gu", "ga", "2026-10-11", 50, fun _ => [⟨"content", "Yo"⟩], false, false⟩
      ⟨[], [], []⟩ =
    (ChatResponse.streamResponse
      [Event.metadata (some "gs") "um" "ga", Event.provider ⟨"content", "Yo"⟩],
     ⟨[], [], []⟩) := by decide
  exact ⟨h0, (context_assembly_client_history_both_modes _ _ _ _ _ _ h0).1⟩

/-- `List.find?` after `patchFirst` with the same predicate: the first
match is the patched record, provided patching preserves the predicate. -/
theorem find?_patchFirst {α : Type} {p : α → Bool} {f : α → α} {l : List α} {x : α}
    (h : l.find? p = some x) (hf : p (f x) = true) :
    (patchFirst p f l).find? p = some (f x) := by
  induction l with
  | nil => simp [List.find?] at h
  | cons y ys ih =>
    rw [List.find?] at h
    cases hy : p y with
    | true =>
      simp only [hy, Option.some_inj] at h
      subst h
      simp [patchFirst, hy, List.find?, hf]
    | false =>
      simp only [hy] at h
      simp [patchFirst, hy, List.find?, ih h]

/-- C9 counterexample: the local `saveAnonMessage` appends the message but
leaves the parent session record untouched — its `updatedAt` stays 5 and
is not bumped to the append time 10. -/
theorem saveAnonMessage_does_not_bump_session :
    (saveAnonMessage ⟨[⟨"s", "t", 5, 5⟩], []⟩ ⟨"m1", "s", Role.user, "hi", 10⟩).sessions =
      [⟨"s", "t", 5, 5⟩] ∧
    ((saveAnonMessage ⟨[⟨"s", "t", 5, 5⟩], []⟩ ⟨"m1", "s", Role.user, "hi", 10⟩).sessions.find?
      (fun s => s.sessionId == "s")).map (fun s => s.updatedAt) ≠ some 10 := by
  decide

/-- C9 amended: the remote `addMessage` bumps the parent session's
`updatedAt` to the append time (hence non-decreasing under a monotone
clock) and still inserts the message when the session record is missing;
the local `saveAnonMessage` also inserts unconditionally but never
touches the session records (no `updatedAt` bump). -/
theorem append_updates_session_timestamp
    (db : ConvexDB) (store : LocalStore) (sessionId messageId content : String)
    (role : Role) (now : Nat) (m : AnonMessage) (session : Session)
    (hfind : findSessionById db sessionId = some session)
    (hclock : session.updatedAt ≤ now) :
    ((addMessageCore sessionId messageId role content now db).messages =
       db.messages ++ [⟨sessionId, messageId, role, content, now⟩] ∧
     (∃ s2, findSessionById (addMessageCore sessionId messageId role content now db) sessionId =
       some s2 ∧ s2.updatedAt = now ∧ session.updatedAt ≤ s2.updatedAt)) ∧
    (∀ db4 : ConvexDB, findSessionById db4 sessionId = none →
      (addMessageCore sessionId messageId role content now db4).messages =
        db4.messages ++ [⟨sessionId, messageId, role, content, now⟩] ∧
      (addMessageCore sessionId messageId role content now db4).sessions = db4.sessions) ∧
    ((saveAnonMessage store m).messages = store.messages ++ [m] ∧
     (saveAnonMessage store m).sessions = store.sessions) := by
  refine ⟨⟨?_, ?_⟩, ?_, ⟨rfl, rfl⟩⟩
  · simp [addMessageCore, bumpSessionUpdatedAt, hfind]
  · have hfind2 : db.sessions.find? (fun s => s.sessionId == sessionId) = some session := hfind
    have hpred : (fun s : Session => s.sessionId == sessionId)
        { session with updatedAt := now } = true := by
      have := List.find?_some hfind2
      simpa using this
    have hff := find?_patchFirst (f := fun s : Session => { s with updatedAt := now }) hfind2 hpred
    refine ⟨{ session with updatedAt := now }, ?_, rfl, hclock⟩
    unfold addMessageCore bumpSessionUpdatedAt findSessionById
    dsimp only
    rw [hfind2]
    exact hff
  · intro db4 hnone
    constructor
    · simp [addMessageCore, bumpSessionUpdatedAt, hnone]
    · simp [addMessageCore, bumpSessionUpdatedAt, hnone]

/-- Witness for C9 at a concrete store and session. -/
theorem append_updates_session_timestamp_witness :
    (findSessionById ⟨[⟨"s", "u", "t", 3, 3⟩], [], []⟩ "s" = some ⟨"s", "u", "t", 3, 3⟩ ∧
     (3 : Nat) ≤ 9) ∧
    ((addMessageCore "s" "m1" Role.user "hi" 9 ⟨[⟨"s", "u", "t", 3, 3⟩], [], []⟩).messages =
       [] ++ [⟨"s", "m1", Role.user, "hi", 9⟩] ∧
     (∃ s2, findSessionById
         (addMessageCore "s" "m1" Role.user "hi" 9 ⟨[⟨"s", "u", "t", 3, 3⟩], [], []⟩) "s" =
       some s2 ∧ s2.updatedAt = 9 ∧ (3 : Nat) ≤ s2.updatedAt)) := by
  have h := append_updates_session_timestamp ⟨[⟨"s", "u", "t", 3, 3⟩], [], []⟩ ⟨[], []⟩
    "s" "m1" "hi" Role.user 9 ⟨"m0", "s", Role.user, "x", 1⟩ ⟨"s", "u", "t", 3, 3⟩
    (by decide) (by decide)
  exact ⟨⟨by decide, by decide⟩, h.1⟩

/-- C1 counterexample: with no verified principal, the client-facing
mutations `createSession`, `addMessage` and `addMessages` succeed and
create records instead of failing with an authorization error — the
handlers never resolve the caller's principal. -/
theorem remoteStore_unauthenticated_mutations_pass_through :
    createSession none "s1" "u1" "t" 3 ⟨[], [], []⟩ =
      Except.ok ⟨[⟨"s1", "u1", "t", 3, 3⟩], [], []⟩ ∧
    addMessage none "s1" "m1" Role.user "hi" 5 ⟨[], [], []⟩ =
      Except.ok ⟨[], [⟨"s1", "m1", Role.user, "hi", 5⟩], []⟩ ∧
    addMessages none "s1" [⟨"m2", Role.assistant, "yo"⟩] 6 ⟨[], [], []⟩ =
      Except.ok ⟨[], [⟨"s1", "m2", Role.assistant, "yo", 6⟩], []⟩ := by
  refine ⟨rfl, rfl, ?_⟩
  simp [addMessages, addMessagesCore, bumpSessionUpdatedAt, findSessionById, List.enum]

/-- C1 amended: with no verified principal the five read entry points
return empty or terminal-pagination results and `updateSession` /
`deleteSession` fail with an authorization error, and on an ownership
mismatch reads return empty results while `updateSession` /
`deleteSession` fail hard; but `createSession`, `addMessage` and
`addMessages` never check authorization and succeed for any caller. -/
theorem remoteStore_auth_and_ownership_guards
    (db : ConvexDB) (u userId sessionId messageId content : String)
    (titleOpt : Option String) (opts : PaginationOpts) (now : Nat) (role : Role)
    (msgs : List MessageInput) (session : Session)
    (hfind : findSessionById db sessionId = some session)
    (hmismatch : session.userId ≠ u)
    (hulist : u ≠ userId) :
    (listSessions none userId db = [] ∧
     listSessionsPaginated none userId opts db = emptyPageResult ∧
     getSession none sessionId db = none ∧
     getMessages none sessionId db = [] ∧
     getMessagesPaginated none sessionId opts db = emptyPageResult ∧
     updateSession none sessionId titleOpt now db = Except.error "Unauthorized" ∧
     deleteSession none sessionId db = Except.error "Unauthorized") ∧
    (listSessions (some u) userId db = [] ∧
     listSessionsPaginated (some u) userId opts db = emptyPageResult ∧
     getSession (some u) sessionId db = none ∧
     getMessages (some u) sessionId db = [] ∧
     getMessagesPaginated (some u) sessionId opts db = emptyPageResult ∧
     updateSession (some u) sessionId titleOpt now db = Except.error "Unauthorized" ∧
     deleteSession (some u) sessionId db = Except.error "Unauthorized") ∧
    ((∃ db2, createSession none sessionId userId "t" now db = Except.ok db2) ∧
     (∃ db2, addMessage none sessionId messageId role content now db = Except.ok db2) ∧
     (∃ db2, addMessages none sessionId msgs now db = Except.ok db2)) := by
  refine ⟨⟨rfl, rfl, rfl, rfl, rfl, rfl, rfl⟩, ⟨?_, ?_, ?_, ?_, ?_, ?_, ?_⟩,
    ⟨_, rfl⟩, ⟨_, rfl⟩, ⟨_, rfl⟩⟩
  · simp [listSessions, hulist]
  · simp [listSessionsPaginated, hulist]
  · simp [getSession, hfind, hmismatch]
  · simp [getMessages, hfind, hmismatch]
  · simp [getMessagesPaginated, hfind, hmismatch]
  · simp [updateSession, hfind, hmismatch]
  · simp [deleteSession, hfind, hmismatch]

/-- Witness for C1 at a concrete store, caller and session. -/
theorem remoteStore_auth_and_ownership_guards_witness :
    (findSessionById ⟨[⟨"s1", "owner", "t", 1, 1⟩], [], []⟩ "s1" =
       some ⟨"s1", "owner", "t", 1, 1⟩ ∧
     ("owner" : String) ≠ "mallory" ∧ ("mallory" : String) ≠ "victim") ∧
    (listSessions none "victim" ⟨[⟨"s1", "owner", "t", 1, 1⟩], [], []⟩ = [] ∧
     getSession (some "mallory") "s1" ⟨[⟨"s1", "owner", "t", 1, 1⟩], [], []⟩ = none ∧
     deleteSession (some "mallory") "s1" ⟨[⟨"s1", "owner", "t", 1, 1⟩], [], []⟩ =
       Except.error "Unauthorized" ∧
     (∃ db2, addMessage none "s1" "m9" Role.user "hi" 7
       ⟨[⟨"s1", "owner", "t", 1, 1⟩], [], []⟩ = Except.ok db2)) := by
  have h := remoteStore_auth_and_ownership_guards
    ⟨[⟨"s1", "owner", "t", 1, 1⟩], [], []⟩ "mallory" "victim" "s1" "m9" "hi"
    none ⟨5, none⟩ 7 Role.user [] ⟨"s1", "owner", "t", 1, 1⟩
    (by decide) (by decide) (by decide)
  exact ⟨⟨by decide, by decide, by decide⟩,
    h.1.1, h.2.1.2.2.1, h.2.1.2.2.2.2.2.2, h.2.2.2.1⟩

/-- After `eraseFirst p`, no element satisfies `p` when at most one did. -/
theorem eraseFirst_no_match {α : Type} {p : α → Bool} {l : List α}
    (h : (l.filter p).length ≤ 1) : ∀ x ∈ eraseFirst p l, p x = false := by
  induction l with
  | nil => intro x hx; simp [eraseFirst] at hx
  | cons y ys ih =>
    intro x hx
    cases hy : p y with
    | true =>
      rw [eraseFirst, if_pos hy] at hx
      have hnil : ys.filter p = [] := by
        rw [List.filter_cons, if_pos hy] at h
        simp only [List.length_cons] at h
        exact List.length_eq_zero.mp (by omega)
      have := List.filter_eq_nil.mp hnil x hx
      simpa using this
    | false =>
      rw [eraseFirst, if_neg (by simp [hy])] at hx
      rcases List.mem_cons.mp hx with hxy | hxs
      · subst hxy; exact hy
      · refine ih ?_ x hxs
        rw [List.filter_cons, if_neg (by simp [hy])] at h
        exact h

/-- `eraseFirst p` keeps every element not satisfying `p`. -/
theorem mem_eraseFirst_of_not {α : Type} {p : α → Bool} {l : List α} {x : α}
    (hx : x ∈ l) (hpx : p x = false) : x ∈ eraseFirst p l := by
  induction l with
  | nil => simp at hx
  | cons y ys ih =>
    rcases List.mem_cons.mp hx with hxy | hxs
    · subst hxy
      rw [eraseFirst, if_neg (by simp [hpx])]
      exact List.mem_cons_self ..
    · rw [eraseFirst]
      split
      · exact hxs
      · exact List.mem_cons_of_mem _ (ih hxs)

/-- `eraseFirst` only removes elements. -/
theorem mem_of_mem_eraseFirst {α : Type} {p : α → Bool} {l : List α} {x : α}
    (hx : x ∈ eraseFirst p l) : x ∈ l := by
  induction l with
  | nil => simpa [eraseFirst] using hx
  | cons y ys ih =>
    rw [eraseFirst] at hx
    split at hx
    · exact List.mem_cons_of_mem _ hx
    · rcases List.mem_cons.mp hx with hxy | hxs
      · subst hxy; exact List.mem_cons_self ..
      · exact List.mem_cons_of_mem _ (ih hxs)

/-- The reverse pagination of an empty message list is the empty terminal
page for every cursor and page size. -/
theorem paginateAnonMessages_nil (c L : Nat) :
    paginateAnonMessages [] (some c) L =
      { messages := [], nextCursor := none, hasMore := false } := by
  unfold paginateAnonMessages jsSlice
  have hc : ¬ ((0:Int) < max 0 ((0:Int) - ((c:Int) + (L:Int)))) := by omega
  simp [hc]
  omega

/-- C10: a successful `deleteSession` on either store removes the session
record and every message sharing its `sessionId`, leaves all other
records untouched, and a subsequent paginated message read for that
session returns the empty terminal page. -/
theorem deleteSession_removes_session_and_messages
    (store : LocalStore) (db db2 : ConvexDB) (sid u : String) (c L : Nat)
    (hdel : deleteSession (some u) sid db = Except.ok db2)
    (huniq : (db.sessions.filter (fun s => s.sessionId == sid)).length ≤ 1) :
    ((∀ s ∈ (deleteAnonSession store sid).sessions, s.sessionId ≠ sid) ∧
     (∀ m ∈ (deleteAnonSession store sid).messages, m.sessionId ≠ sid) ∧
     (∀ s ∈ store.sessions, s.sessionId ≠ sid → s ∈ (deleteAnonSession store sid).sessions) ∧
     (∀ s ∈ (deleteAnonSession store sid).sessions, s ∈ store.sessions) ∧
     (∀ m ∈ store.messages, m.sessionId ≠ sid → m ∈ (deleteAnonSession store sid).messages) ∧
     (∀ m ∈ (deleteAnonSession store sid).messages, m ∈ store.messages) ∧
     getAnonMessagesPaginated (deleteAnonSession store sid) sid (some c) L =
       { messages := [], nextCursor := none, hasMore := false }) ∧
    ((∀ s ∈ db2.sessions, s.sessionId ≠ sid) ∧
     (∀ m ∈ db2.messages, m.sessionId ≠ sid) ∧
     (∀ s ∈ db.sessions, s.sessionId ≠ sid → s ∈ db2.sessions) ∧
     (∀ s ∈ db2.sessions, s ∈ db.sessions) ∧
     (∀ m ∈ db.messages, m.sessionId ≠ sid → m ∈ db2.messages) ∧
     (∀ m ∈ db2.messages, m ∈ db.messages) ∧
     (∀ opts, getMessagesPaginated (some u) sid opts db2 = emptyPageResult)) := by
  have hlocalMsgs : (deleteAnonSession store sid).messages.filter
      (fun m => m.sessionId == sid) = [] := by
    simp only [deleteAnonSession, List.filter_filter]
    apply List.filter_eq_nil.mpr
    intro m m_in
    simp
  constructor
  · refine ⟨?_, ?_, ?_, ?_, ?_, ?_, ?_⟩
    · intro s hs
      have := (List.mem_filter.mp hs).2
      simpa using this
    · intro m hm
      have := (List.mem_filter.mp hm).2
      simpa using this
    · intro s hs hne
      exact List.mem_filter.mpr ⟨hs, by simpa using hne⟩
    · intro s hs
      exact (List.mem_filter.mp hs).1
    · intro m hm hne
      exact List.mem_filter.mpr ⟨hm, by simpa using hne⟩
    · intro m hm
      exact (List.mem_filter.mp hm).1
    · unfold getAnonMessagesPaginated getAnonMessages
      rw [hlocalMsgs]
      exact paginateAnonMessages_nil c L
  · unfold deleteSession at hdel
    dsimp only at hdel
    cases hfind : findSessionById db sid with
    | none =>
      rw [hfind] at hdel
      exact Except.noConfusion hdel
    | some session =>
      rw [hfind] at hdel
      dsimp only at hdel
      by_cases hown : session.userId ≠ u
      · rw [if_pos hown] at hdel; exact Except.noConfusion hdel
      · rw [if_neg hown] at hdel
        have hdb2 := (Except.ok.inj hdel).symm
        subst hdb2
        have hsess : ∀ s ∈ eraseFirst (fun s => s.sessionId == sid) db.sessions,
            s.sessionId ≠ sid := by
          intro s hs
          have := eraseFirst_no_match huniq s hs
          simpa using this
        refine ⟨hsess, ?_, ?_, ?_, ?_, ?_, ?_⟩
        · intro m hm
          have := (List.mem_filter.mp hm).2
          simpa using this
        · intro s hs hne
          exact mem_eraseFirst_of_not hs (by simpa using hne)
        · intro s hs
          exact mem_of_mem_eraseFirst hs
        · intro m hm hne
          exact List.mem_filter.mpr ⟨hm, by simpa using hne⟩
        · intro m hm
          exact (List.mem_filter.mp hm).1
        · intro opts
          have hnone : List.find? (fun s => s.sessionId == sid)
              (eraseFirst (fun s => s.sessionId == sid) db.sessions) = none := by
            apply List.find?_eq_none.mpr
            intro s hs
            simp only [Bool.not_eq_true]
            have := hsess s hs
            simpa using this
          unfold getMessagesPaginated findSessionById
          dsimp only
          rw [hnone]

/-- Witness for C10 at a concrete pair of stores each holding two
sessions. -/
theorem deleteSession_removes_session_and_messages_witness :
    (deleteSession (some "u") "a"
       ⟨[⟨"a", "u", "t", 1, 1⟩, ⟨"b", "u", "t2", 2, 2⟩],
        [⟨"a", "m1", Role.user, "x", 1⟩, ⟨"b", "m2", Role.user, "y", 2⟩], []⟩ =
       Except.ok ⟨[⟨"b", "u", "t2", 2, 2⟩], [⟨"b", "m2", Role.user, "y", 2⟩], []⟩ ∧
     (([⟨"a", "u", "t", 1, 1⟩, ⟨"b", "u", "t2", 2, 2⟩] : List Session).filter
        (fun s => s.sessionId == "a")).length ≤ 1) ∧
    ((∀ s ∈ (deleteAnonSession
        ⟨[⟨"a", "t", 1, 1⟩, ⟨"b", "t2", 2, 2⟩],
         [⟨"m1", "a", Role.user, "x", 1⟩, ⟨"m2", "b", Role.user, "y", 2⟩]⟩ "a").sessions,
        s.sessionId ≠ "a") ∧
     getAnonMessagesPaginated (deleteAnonSession
        ⟨[⟨"a", "t", 1, 1⟩, ⟨"b", "t2", 2, 2⟩],
         [⟨"m1", "a", Role.user, "x", 1⟩, ⟨"m2", "b", Role.user, "y", 2⟩]⟩ "a") "a"
        (some 0) 50 = { messages := [], nextCursor := none, hasMore := false }) ∧
    (∀ opts, getMessagesPaginated (some "u") "a"
       opts ⟨[⟨"b", "u", "t2", 2, 2⟩], [⟨"b", "m2", Role.user, "y", 2⟩], []⟩ =
       emptyPageResult) := by
  have h := deleteSession_removes_session_and_messages
    ⟨[⟨"a", "t", 1, 1⟩, ⟨"b", "t2", 2, 2⟩],
     [⟨"m1", "a", Role.user, "x", 1⟩, ⟨"m2", "b", Role.user, "y", 2⟩]⟩
    ⟨[⟨"a", "u", "t", 1, 1⟩, ⟨"b", "u", "t2", 2, 2⟩],
     [⟨"a", "m1", Role.user, "x", 1⟩, ⟨"b", "m2", Role.user, "y", 2⟩], []⟩
    ⟨[⟨"b", "u", "t2", 2, 2⟩], [⟨"b", "m2", Role.user, "y", 2⟩], []⟩
    "a" "u" 0 50 rfl (by decide)
  exact ⟨⟨rfl, by decide⟩, ⟨h.1.1, h.1.2.2.2.2.2.2⟩, h.2.2.2.2.2.2.2⟩

/-- Witness for C3 at a concrete identity and days. -/
theorem rateLimiter_daily_quota_and_reset_witness :
    (([] : List RLRecord).find? (rlMatches "u1" "2026-10-11") = none ∧
     ([] : List RLRecord).find? (rlMatches "u1" "2026-10-12") = none ∧
     "2026-10-12" ≠ "2026-10-11") ∧
    ((checkRateLimit [] "2026-10-11" "u1" "user").limit = 10 ∧
     (checkRateLimit [] "2026-10-11" "u1" "ip").limit = 5 ∧
     (checkRateLimit
       (incrementRateLimitN [] "2026-10-11" 7 "u1" "user" (if ("user" : String) = "user" then 10 else 5))
       "2026-10-11" "u1" "user").allowed = false ∧
     (checkRateLimit
       (incrementRateLimitN [] "2026-10-11" 7 "u1" "user" (if ("user" : String) = "user" then 10 else 5))
       "2026-10-12" "u1" "user").allowed = true ∧
    (∀ rl2 id2 ty2,
      (checkRateLimit rl2 "2026-10-11" id2 ty2).resetAt = "2026-10-11" ++ "T23:59:59Z")) :=
  ⟨⟨by decide, by decide, by decide⟩,
   rateLimiter_daily_quota_and_reset [] "u1" "user" "2026-10-11" "2026-10-12" 7
     (by decide) (by decide) (by decide)⟩

/-- Characterization of one reverse-pagination page at cursor `c ≤ N`:
the returned window is `[max(0, N-c-L), N-c)` of the sorted list (the
`max` is the truncation built into natural subtraction), `hasMore` holds
exactly while that window's start index is positive, and the next cursor
is `c + L`. -/
theorem paginateAnonMessages_spec (msgs : List AnonMessage) (c L : Nat)
    (hc : c ≤ msgs.length) :
    paginateAnonMessages msgs (some c) L =
      { messages := (msgs.take (msgs.length - c)).drop (msgs.length - c - L)
        nextCursor := if 0 < msgs.length - c - L then some (c + L) else none
        hasMore := decide (0 < msgs.length - c - L) } := by
  unfold paginateAnonMessages jsSlice
  simp only [Option.getD_some]
  have h1 : ¬ ((max 0 ((msgs.length : Int) - ((c + L : Nat) : Int))) < 0) := by omega
  have h2 : ¬ (((msgs.length : Int) - (c : Int)) < 0) := by omega
  rw [if_neg h1, if_neg h2]
  have h3 : (min (max 0 ((msgs.length : Int) - ((c + L : Nat) : Int)))
      ((msgs.length : Int))).toNat = msgs.length - c - L := by omega
  have h4 : (min ((msgs.length : Int) - (c : Int)) ((msgs.length : Int))).toNat =
      msgs.length - c := by omega
  rw [h3, h4]
  have h5 : (decide ((0:Int) < max 0 ((msgs.length : Int) - ((c + L : Nat) : Int)))) =
      decide (0 < msgs.length - c - L) := by
    simp only [decide_eq_decide]
    omega
  rw [h5]
  simp only [decide_eq_true_eq]

/-- With enough fuel, following the reverse pagination from a cursor
inside the list always reaches a terminal (`hasMore = false`) page. -/
theorem followAnonPages_isSome (msgs : List AnonMessage) (L : Nat) :
    ∀ fuel c, c ≤ msgs.length → msgs.length < c + fuel * L →
      (followAnonPages msgs L fuel c).isSome = true := by
  intro fuel
  induction fuel with
  | zero =>
    intro c hc hlt
    omega
  | succ f ih =>
    intro c hc hlt
    rw [followAnonPages]
    rw [paginateAnonMessages_spec msgs c L hc]
    dsimp only
    by_cases hm : 0 < msgs.length - c - L
    · rw [if_pos (by simpa using hm), if_pos hm]
      dsimp only
      have := ih (c + L) (by omega) (by
        have : (f + 1) * L = f * L + L := by ring
        omega)
      simpa using this
    · rw [if_neg (by simpa using hm)]
      rfl

/-- Following the reverse pagination from cursor `c` collects, newest
page first, exactly the first `N - c` messages of the sorted list. -/
theorem followAnonPages_join (msgs : List AnonMessage) (L : Nat) :
    ∀ fuel c pages, c ≤ msgs.length →
      followAnonPages msgs L fuel c = some pages →
      pages.reverse.join = msgs.take (msgs.length - c) := by
  intro fuel
  induction fuel with
  | zero =>
    intro c pages hc h
    simp [followAnonPages] at h
  | succ f ih =>
    intro c pages hc h
    rw [followAnonPages, paginateAnonMessages_spec msgs c L hc] at h
    dsimp only at h
    by_cases hm : 0 < msgs.length - c - L
    · rw [if_pos (by simpa using hm), if_pos hm] at h
      dsimp only at h
      rcases hrest : followAnonPages msgs L f (c + L) with _ | rest
      · rw [hrest] at h
        simp at h
      · rw [hrest] at h
        simp only [Option.map_some', Option.some_inj] at h
        subst h
        have hjoin := ih (c + L) rest (by omega) hrest
        have hsub : msgs.length - (c + L) = msgs.length - c - L := by omega
        have htt : msgs.take (msgs.length - c - L) =
            (msgs.take (msgs.length - c)).take (msgs.length - c - L) := by
          rw [List.take_take]
          congr 1
          omega
        have hj : ((List.drop (msgs.length - c - L) (List.take (msgs.length - c) msgs)
            :: rest).reverse).join =
            rest.reverse.join ++
              List.drop (msgs.length - c - L) (List.take (msgs.length - c) msgs) := by
          simp
        rw [hj, hjoin, hsub, htt, List.take_append_drop]
    · rw [if_neg (by simpa using hm)] at h
      simp only [Option.some_inj] at h
      subst h
      have hz : msgs.length - c - L = 0 := by omega
      simp [hz]

/-- C5: for every sorted message list and page size `L > 0`, following
`nextCursor` from cursor 0 terminates with a `hasMore = false` page and
the pages together are exactly the `N` messages (newest page first, so
the reversed concatenation is the chronological list, with no duplicates
and no gaps); each page at cursor `c ≤ N` is the window
`[max(0, N-c-L), N-c)` of the sorted list, and `hasMore` holds exactly
when that window's start index is positive. -/
theorem reverse_pagination_yields_all_messages
    (msgs : List AnonMessage) (L c : Nat) (hL : 0 < L) (hc : c ≤ msgs.length) :
    (∃ pages, followAnonPages msgs L (msgs.length + 1) 0 = some pages ∧
       pages.reverse.join = msgs) ∧
    (paginateAnonMessages msgs (some c) L).messages =
      (msgs.take (msgs.length - c)).drop (msgs.length - c - L) ∧
    ((paginateAnonMessages msgs (some c) L).hasMore = true ↔
      0 < msgs.length - c - L) ∧
    (paginateAnonMessages msgs (some c) L).nextCursor =
      (if 0 < msgs.length - c - L then some (c + L) else none) := by
  have hspec := paginateAnonMessages_spec msgs c L hc
  refine ⟨?_, by rw [hspec], by rw [hspec]; simp, by rw [hspec]⟩
  have hsome := followAnonPages_isSome msgs L (msgs.length + 1) 0 (by omega) (by
    have : msgs.length + 1 ≤ (msgs.length + 1) * L := Nat.le_mul_of_pos_right _ hL
    omega)
  rcases hps : followAnonPages msgs L (msgs.length + 1) 0 with _ | pages
  · rw [hps] at hsome
    simp at hsome
  · refine ⟨pages, rfl, ?_⟩
    have := followAnonPages_join msgs L (msgs.length + 1) 0 pages (by omega) hps
    simpa using this

/-- Witness for C5: three messages paged two at a time. -/
theorem reverse_pagination_yields_all_messages_witness :
    ((0 : Nat) < 2 ∧ (2 : Nat) ≤ 3) ∧
    ((∃ pages, followAnonPages
        [⟨"m1", "s", Role.user, "a", 1⟩, ⟨"m2", "s", Role.assistant, "b", 2⟩,
         ⟨"m3", "s", Role.user, "c", 3⟩] 2 (3 + 1) 0 = some pages ∧
       pages.reverse.join =
         [⟨"m1", "s", Role.user, "a", 1⟩, ⟨"m2", "s", Role.assistant, "b", 2⟩,
          ⟨"m3", "s", Role.user, "c", 3⟩]) ∧
     (paginateAnonMessages
        [⟨"m1", "s", Role.user, "a", 1⟩, ⟨"m2", "s", Role.assistant, "b", 2⟩,
         ⟨"m3", "s", Role.user, "c", 3⟩] (some 2) 2).messages =
       (([⟨"m1", "s", Role.user, "a", 1⟩, ⟨"m2", "s", Role.assistant, "b", 2⟩,
          ⟨"m3", "s", Role.user, "c", 3⟩] : List AnonMessage).take (3 - 2)).drop (3 - 2 - 2) ∧
     ((paginateAnonMessages
        [⟨"m1", "s", Role.user, "a", 1⟩, ⟨"m2", "s", Role.assistant, "b", 2⟩,
         ⟨"m3", "s", Role.user, "c", 3⟩] (some 2) 2).hasMore = true ↔
       0 < 3 - 2 - 2) ∧
     (paginateAnonMessages
        [⟨"m1", "s", Role.user, "a", 1⟩, ⟨"m2", "s", Role.assistant, "b", 2⟩,
         ⟨"m3", "s", Role.user, "c", 3⟩] (some 2) 2).nextCursor =
       (if 0 < 3 - 2 - 2 then some (2 + 2) else none)) := by
  constructor
  · exact ⟨by decide, by decide⟩
  · exact reverse_pagination_yields_all_messages
      [⟨"m1", "s", Role.user, "a", 1⟩, ⟨"m2", "s", Role.assistant, "b", 2⟩,
       ⟨"m3", "s", Role.user, "c", 3⟩] 2 2 (by decide) (by decide)

theorem sortInsert_append {α : Type} (key : α → Nat) (x : α) (acc : List α)
    (h : ∀ y ∈ acc, key y ≤ key x) : sortInsert key x acc = acc ++ [x] := by
  induction acc with
  | nil => rfl
  | cons y ys ih =>
    rw [sortInsert, if_pos (h y (List.mem_cons_self ..))]
    rw [ih (fun z hz => h z (List.mem_cons_of_mem _ hz))]
    rfl

theorem jsSortBy_foldl {α : Type} (key : α → Nat) :
    ∀ (l acc : List α), List.Pairwise (fun x y => key x ≤ key y) l →
      (∀ a ∈ acc, ∀ b ∈ l, key a ≤ key b) →
      l.foldl (fun acc x => sortInsert key x acc) acc = acc ++ l := by
  intro l
  induction l with
  | nil => intro acc _ _; simp
  | cons x xs ih =>
    intro acc hpair hcross
    rw [List.foldl_cons]
    rw [sortInsert_append key x acc (fun y hy => hcross y hy x (List.mem_cons_self ..))]
    rw [ih (acc ++ [x]) (List.Pairwise.of_cons hpair) ?_]
    · simp
    · intro a ha b hb
      rcases List.mem_append.mp ha with haa | hax
      · exact hcross a haa b (List.mem_cons_of_mem _ hb)
      · have hax2 : a = x := by simpa using hax
        subst hax2
        exact (List.pairwise_cons.mp hpair).1 b hb

/-- The stable JavaScript sort leaves an already-sorted list unchanged. -/
theorem jsSortBy_of_sorted {α : Type} (key : α → Nat) (l : List α)
    (h : List.Pairwise (fun x y => key x ≤ key y) l) : jsSortBy key l = l := by
  unfold jsSortBy
  rw [jsSortBy_foldl key l [] h (by simp)]
  rfl

theorem maxTimestamp_base (l : List ViewMsg) :
    ∀ b, maxTimestamp b l = max b (maxTimestamp 0 l) := by
  induction l with
  | nil => intro b; simp [maxTimestamp]
  | cons x xs ih =>
    intro b
    show maxTimestamp (max b x.createdAt) xs = max b (maxTimestamp (max 0 x.createdAt) xs)
    rw [ih (max b x.createdAt), ih (max 0 x.createdAt)]
    omega

theorem le_maxTimestamp (l : List ViewMsg) (m : ViewMsg) :
    m ∈ l → ∀ b, m.createdAt ≤ maxTimestamp b l := by
  induction l with
  | nil => intro hm; simp at hm
  | cons x xs ih =>
    intro hm b
    show m.createdAt ≤ maxTimestamp (max b x.createdAt) xs
    rcases List.mem_cons.mp hm with hmx | hms
    · subst hmx
      rw [maxTimestamp_base]
      omega
    · exact ih hms _

theorem maxTimestamp_append (b : Nat) (l : List ViewMsg) (x : ViewMsg) :
    maxTimestamp b (l ++ [x]) = max (maxTimestamp b l) x.createdAt := by
  unfold maxTimestamp
  rw [List.foldl_append]
  rfl

/-- C6: the merge view is a pure function of the persisted list and the
live turn.  With no live turn (not loading, or no `useChat` messages) it
returns the persisted messages unchanged (they are sorted ascending by
`createdAt`).  With a live turn it appends the user line at
`max(persisted createdAt) + 1` if and only if no persisted message
carries the pre-allocated user id, and appends the assistant line —
flagged as streaming, at a strictly later timestamp than the just-placed
user line — if and only if its id is not already present: the four live
cases below cover each combination of the two ids being persisted or
not, so a line whose id the store already holds is never appended. -/
theorem mergeView_pure_projection
    (stored : List Message) (chat : List LiveMsg) (u a : LiveMsg) (uid aid : String)
    (hsorted : List.Pairwise (fun x y => x.createdAt ≤ y.createdAt) stored)
    (hu : chat.find? (fun m => m.role == Role.user) = some u)
    (ha : chat.find? (fun m => m.role == Role.assistant) = some a)
    (hdistinct : uid ≠ aid)
    (hune : uid ≠ "") (hane : aid ≠ "") :
    (∀ chat2 ur ar, mergeView stored false chat2 ur ar = stored.map toViewMsg) ∧
    (∀ ur ar, mergeView stored true [] ur ar = stored.map toViewMsg) ∧
    ((∀ m ∈ stored, m.messageId ≠ aid) → (∃ m ∈ stored, m.messageId = uid) →
      mergeView stored true chat (some uid) (some aid) =
        stored.map toViewMsg ++
          [⟨aid, Role.assistant, a.content,
            maxTimestamp 0 (stored.map toViewMsg) + 1, true⟩]) ∧
    ((∀ m ∈ stored, m.messageId ≠ aid) → (∀ m ∈ stored, m.messageId ≠ uid) →
      mergeView stored true chat (some uid) (some aid) =
        stored.map toViewMsg ++
          [⟨uid, Role.user, u.content, maxTimestamp 0 (stored.map toViewMsg) + 1, false⟩,
           ⟨aid, Role.assistant, a.content,
             maxTimestamp 0 (stored.map toViewMsg) + 2, true⟩]) ∧
    ((∃ m ∈ stored, m.messageId = aid) → (∃ m ∈ stored, m.messageId = uid) →
      mergeView stored true chat (some uid) (some aid) = stored.map toViewMsg) ∧
    ((∃ m ∈ stored, m.messageId = aid) → (∀ m ∈ stored, m.messageId ≠ uid) →
      mergeView stored true chat (some uid) (some aid) =
        stored.map toViewMsg ++
          [⟨uid, Role.user, u.content, maxTimestamp 0 (stored.map toViewMsg) + 1, false⟩]) := by
  have hmap : List.Pairwise (fun x y : ViewMsg => x.createdAt ≤ y.createdAt)
      (stored.map toViewMsg) := by
    apply List.Pairwise.map
    · intro x y hxy
      exact hxy
    · exact hsorted
  have hlen : 0 < chat.length := by
    have hmem := List.mem_of_find?_eq_some hu
    cases chat with
    | nil => simp at hmem
    | cons x xs => simp
  have hbound : ∀ vm ∈ stored.map toViewMsg,
      vm.createdAt ≤ maxTimestamp 0 (stored.map toViewMsg) :=
    fun vm hvm => le_maxTimestamp _ vm hvm 0
  refine ⟨?_, ?_, ?_, ?_, ?_, ?_⟩
  · intro chat2 ur ar
    unfold mergeView
    dsimp only
    rw [if_neg (by simp)]
    exact jsSortBy_of_sorted _ _ hmap
  · intro ur ar
    unfold mergeView
    dsimp only
    rw [if_neg (by simp)]
    exact jsSortBy_of_sorted _ _ hmap
  · intro haid huid
    obtain ⟨m0, hm0, hm0id⟩ := huid
    unfold mergeView
    try dsimp only
    rw [if_pos ⟨rfl, hlen⟩]
    have hhasUser : (stored.map toViewMsg).any (fun m => m.id == uid) = true := by
      apply List.any_eq_true.mpr
      exact ⟨toViewMsg m0, List.mem_map_of_mem _ hm0, by simp [toViewMsg, hm0id]⟩
    rw [hhasUser]
    rw [if_neg (show ¬((!true) = true) by simp)]
    have hhasAsst : (stored.map toViewMsg).any (fun m => m.id == aid) = false := by
      apply List.any_eq_false.mpr
      intro vm hvm
      obtain ⟨m1, hm1, hm1v⟩ := List.mem_map.mp hvm
      subst hm1v
      simp [toViewMsg, haid m1 hm1]
    rw [hhasAsst]
    rw [if_pos (show (!false) = true from rfl), ha]
    dsimp only
    rw [maxTimestamp_base (stored.map toViewMsg) (maxTimestamp 0 (stored.map toViewMsg))]
    rw [max_self]
    have hjs : jsOrD (some aid) a.id = aid := by simp [jsOrD, hane]
    rw [hjs]
    apply jsSortBy_of_sorted
    rw [List.pairwise_append]
    refine ⟨hmap, by simp, ?_⟩
    intro x hx y hy
    simp only [List.mem_singleton] at hy
    subst hy
    have := hbound x hx
    simp only []
    omega
  · intro haid huid
    unfold mergeView
    try dsimp only
    rw [if_pos ⟨rfl, hlen⟩]
    have hhasUser : (stored.map toViewMsg).any (fun m => m.id == uid) = false := by
      apply List.any_eq_false.mpr
      intro vm hvm
      obtain ⟨m1, hm1, hm1v⟩ := List.mem_map.mp hvm
      subst hm1v
      simp [toViewMsg, huid m1 hm1]
    rw [hhasUser]
    rw [if_pos (show (!false) = true from rfl), hu]
    dsimp only
    have hjsu : jsOrD (some uid) u.id = uid := by simp [jsOrD, hune]
    rw [hjsu]
    have hhasAsst : ((stored.map toViewMsg) ++
        ([⟨uid, Role.user, u.content, maxTimestamp 0 (stored.map toViewMsg) + 1, false⟩] :
          List ViewMsg)).any (fun m => m.id == aid) = false := by
      apply List.any_eq_false.mpr
      intro vm hvm
      rcases List.mem_append.mp hvm with hvs | hvu
      · obtain ⟨m1, hm1, hm1v⟩ := List.mem_map.mp hvs
        subst hm1v
        simp [toViewMsg, haid m1 hm1]
      · have : vm = ⟨uid, Role.user, u.content,
            maxTimestamp 0 (stored.map toViewMsg) + 1, false⟩ := by simpa using hvu
        subst this
        simp [fun h => hdistinct h]
    rw [hhasAsst]
    rw [if_pos (show (!false) = true from rfl), ha]
    dsimp only
    have hjsa : jsOrD (some aid) a.id = aid := by simp [jsOrD, hane]
    rw [hjsa]
    rw [maxTimestamp_append]
    rw [maxTimestamp_base (stored.map toViewMsg) (maxTimestamp 0 (stored.map toViewMsg))]
    rw [max_self]
    dsimp only
    rw [show max (maxTimestamp 0 (stored.map toViewMsg))
        (maxTimestamp 0 (stored.map toViewMsg) + 1) =
        maxTimestamp 0 (stored.map toViewMsg) + 1 from by omega]
    rw [List.append_assoc]
    have hfinal : jsSortBy (fun m => m.createdAt)
        ((stored.map toViewMsg) ++
          ([⟨uid, Role.user, u.content, maxTimestamp 0 (stored.map toViewMsg) + 1, false⟩] ++
           [⟨aid, Role.assistant, a.content, maxTimestamp 0 (stored.map toViewMsg) + 2, true⟩])) =
        (stored.map toViewMsg) ++
          ([⟨uid, Role.user, u.content, maxTimestamp 0 (stored.map toViewMsg) + 1, false⟩] ++
           [⟨aid, Role.assistant, a.content, maxTimestamp 0 (stored.map toViewMsg) + 2, true⟩]) := by
      apply jsSortBy_of_sorted
      rw [List.pairwise_append]
      refine ⟨hmap, by simp, ?_⟩
      intro x hx y hy
      have hxb := hbound x hx
      rcases List.mem_append.mp hy with hy1 | hy2
      · have : y = ⟨uid, Role.user, u.content,
            maxTimestamp 0 (stored.map toViewMsg) + 1, false⟩ := by simpa using hy1
        subst this
        dsimp only
        omega
      · have : y = ⟨aid, Role.assistant, a.content,
            maxTimestamp 0 (stored.map toViewMsg) + 2, true⟩ := by simpa using hy2
        subst this
        dsimp only
        omega
    rw [hfinal]
    simp
  · intro haid huid
    obtain ⟨m0, hm0, hm0id⟩ := huid
    obtain ⟨m2, hm2, hm2id⟩ := haid
    unfold mergeView
    try dsimp only
    rw [if_pos ⟨rfl, hlen⟩]
    have hhasUser : (stored.map toViewMsg).any (fun m => m.id == uid) = true := by
      apply List.any_eq_true.mpr
      exact ⟨toViewMsg m0, List.mem_map_of_mem _ hm0, by simp [toViewMsg, hm0id]⟩
    rw [hhasUser]
    rw [if_neg (show ¬((!true) = true) by simp)]
    have hhasAsst : (stored.map toViewMsg).any (fun m => m.id == aid) = true := by
      apply List.any_eq_true.mpr
      exact ⟨toViewMsg m2, List.mem_map_of_mem _ hm2, by simp [toViewMsg, hm2id]⟩
    rw [hhasAsst]
    rw [if_neg (show ¬((!true) = true) by simp)]
    exact jsSortBy_of_sorted _ _ hmap
  · intro haid huid
    obtain ⟨m2, hm2, hm2id⟩ := haid
    unfold mergeView
    try dsimp only
    rw [if_pos ⟨rfl, hlen⟩]
    have hhasUser : (stored.map toViewMsg).any (fun m => m.id == uid) = false := by
      apply List.any_eq_false.mpr
      intro vm hvm
      obtain ⟨m1, hm1, hm1v⟩ := List.mem_map.mp hvm
      subst hm1v
      simp [toViewMsg, huid m1 hm1]
    rw [hhasUser]
    rw [if_pos (show (!false) = true from rfl), hu]
    dsimp only
    have hjsu : jsOrD (some uid) u.id = uid := by simp [jsOrD, hune]
    rw [hjsu]
    have hhasAsst : ((stored.map toViewMsg) ++
        ([⟨uid, Role.user, u.content, maxTimestamp 0 (stored.map toViewMsg) + 1, false⟩] :
          List ViewMsg)).any (fun m => m.id == aid) = true := by
      apply List.any_eq_true.mpr
      exact ⟨toViewMsg m2, List.mem_append.mpr (Or.inl (List.mem_map_of_mem _ hm2)),
        by simp [toViewMsg, hm2id]⟩
    rw [hhasAsst]
    rw [if_neg (show ¬((!true) = true) by simp)]
    apply jsSortBy_of_sorted
    rw [List.pairwise_append]
    refine ⟨hmap, by simp, ?_⟩
    intro x hx y hy
    simp only [List.mem_singleton] at hy
    subst hy
    have := hbound x hx
    simp only []
    omega

/-- Witness for C6 at a concrete persisted list and live turn, exercising
both the append case (neither id persisted) and the dedup case (both ids
already persisted, so nothing is appended). -/
theorem mergeView_pure_projection_witness :
    (List.Pairwise (fun x y : Message => x.createdAt ≤ y.createdAt)
       [⟨"s", "m1", Role.user, "hi", 1⟩, ⟨"s", "m2", Role.assistant, "yo", 2⟩] ∧
     ([⟨"u9", Role.user, "live user"⟩, ⟨"a9", Role.assistant, "live asst"⟩] :
        List LiveMsg).find? (fun m => m.role == Role.user) = some ⟨"u9", Role.user, "live user"⟩ ∧
     ([⟨"u9", Role.user, "live user"⟩, ⟨"a9", Role.assistant, "live asst"⟩] :
        List LiveMsg).find? (fun m => m.role == Role.assistant) =
       some ⟨"a9", Role.assistant, "live asst"⟩) ∧
    (mergeView [⟨"s", "m1", Role.user, "hi", 1⟩, ⟨"s", "m2", Role.assistant, "yo", 2⟩]
       false [⟨"u9", Role.user, "live user"⟩] none none =
       ([⟨"s", "m1", Role.user, "hi", 1⟩,
         ⟨"s", "m2", Role.assistant, "yo", 2⟩] : List Message).map toViewMsg) ∧
    (mergeView [⟨"s", "m1", Role.user, "hi", 1⟩, ⟨"s", "m2", Role.assistant, "yo", 2⟩]
       true [⟨"u9", Role.user, "live user"⟩, ⟨"a9", Role.assistant, "live asst"⟩]
       (some "u9") (some "a9") =
       ([⟨"s", "m1", Role.user, "hi", 1⟩,
         ⟨"s", "m2", Role.assistant, "yo", 2⟩] : List Message).map toViewMsg ++
         [⟨"u9", Role.user, "live user",
           maxTimestamp 0 (([⟨"s", "m1", Role.user, "hi", 1⟩,
             ⟨"s", "m2", Role.assistant, "yo", 2⟩] : List Message).map toViewMsg) + 1, false⟩,
          ⟨"a9", Role.assistant, "live asst",
           maxTimestamp 0 (([⟨"s", "m1", Role.user, "hi", 1⟩,
             ⟨"s", "m2", Role.assistant, "yo", 2⟩] : List Message).map toViewMsg) + 2, true⟩]) ∧
    (mergeView [⟨"s", "m1", Role.user, "hi", 1⟩, ⟨"s", "m2", Role.assistant, "yo", 2⟩]
       true [⟨"u9", Role.user, "live user"⟩, ⟨"a9", Role.assistant, "live asst"⟩]
       (some "m1") (some "m2") =
       ([⟨"s", "m1", Role.user, "hi", 1⟩,
         ⟨"s", "m2", Role.assistant, "yo", 2⟩] : List Message).map toViewMsg) := by
  have h := mergeView_pure_projection
    [⟨"s", "m1", Role.user, "hi", 1⟩, ⟨"s", "m2", Role.assistant, "yo", 2⟩]
    [⟨"u9", Role.user, "live user"⟩, ⟨"a9", Role.assistant, "live asst"⟩]
    ⟨"u9", Role.user, "live user"⟩ ⟨"a9", Role.assistant, "live asst"⟩ "u9" "a9"
    (by decide) (by decide) (by decide) (by decide) (by decide) (by decide)
  have h2 := mergeView_pure_projection
    [⟨"s", "m1", Role.user, "hi", 1⟩, ⟨"s", "m2", Role.assistant, "yo", 2⟩]
    [⟨"u9", Role.user, "live user"⟩, ⟨"a9", Role.assistant, "live asst"⟩]
    ⟨"u9", Role.user, "live user"⟩ ⟨"a9", Role.assistant, "live asst"⟩ "m1" "m2"
    (by decide) (by decide) (by decide) (by decide) (by decide) (by decide)
  exact ⟨⟨by decide, by decide, by decide⟩,
    h.1 [⟨"u9", Role.user, "live user"⟩] none none,
    h.2.2.2.1 (by decide) (by decide),
    h2.2.2.2.2.1 (by decide) (by decide)⟩

end ChatApp

